import Mathlib

/-!
Verification of the DMuffler RPM-driven engine-sound pipeline.

This file gives a shallow embedding, in Lean 4, of the parts of the
DMuffler repository that the checked claims are about:

* `src/dmuffler_pi.py` — CAN-frame RPM decoding (`get_rpm_from_can_message`),
  the WAV catalog loader (`load_audio_files`), the RPM → audio-file
  selection (`get_audio_file_for_rpm`), the threaded playback error
  handling (`play_audio_segment_threaded`), and the audio-logic step of
  the main loop;
* `src/EngineSoundPitchShifter.py` — the sounddevice callback
  (`audio_callback`) and the gas-pedal simulation (`simulate_gas_pedal`);
* `src/EngineSoundGenerator.py` — `set_engine_sound` together with the
  `EngineSoundsDict` catalog from `src/GlobalConstants.py`.

Modelling conventions: Python floats are modelled as `Rat` (every
concrete constant appearing in the claims is exactly representable, and
the properties at stake are order/equality properties, not
rounding ones); Python dicts are association lists in insertion order
with the corresponding first-match access; a Python function that may
raise is modelled with `Option` (`none` = an exception was raised); the
pitch-shift transform and the wave-file loader, which are external
library calls, are parameters of the embedding.
-/

/-! ## CAN decoding (src/dmuffler_pi.py, get_rpm_from_can_message) -/

/-- A received CAN frame as used by `get_rpm_from_can_message`:
`msg.arbitration_id` and `msg.data` (a byte sequence). -/
structure CanMessage where
  arbitration_id : Nat
  data : List Nat
deriving DecidableEq

/-- Python `int.from_bytes(bs, byteorder='little')`. -/
def int_from_bytes_le (bs : List Nat) : Nat :=
  bs.foldr (fun b acc => b + 256 * acc) 0

/-- Embedding of `get_rpm_from_can_message` (src/dmuffler_pi.py lines
671-761).  NOTE: the committed function body is not syntactically valid
Python — the `else:` on line 744 is indented to a level (16 spaces) that
matches no open block, so the module raises `IndentationError` when
loaded (verified with `ast.parse`).  This definition embeds the body
under the minimal indentation repair that makes the written branches
fit together, which is also what the function's own docstring and debug
messages describe: if the arbitration id matches, a 16-bit
little-endian raw value is read when `byte_index + 2` bytes are
available (line 725-727); otherwise a single byte is used as the raw
value when `byte_index + 1` bytes are available (line 740-743, the
"fallback example"); otherwise `None` (line 744-747); the raw value is
then scaled and offset (line 749) and returned (line 752).  A
non-matching id returns `None` (line 761). -/
def get_rpm_from_can_message (msg : CanMessage) (target_can_id : Nat)
    (byte_index : Nat) (scale_factor rpm_offset : Rat) : Option Rat :=
  if msg.arbitration_id = target_can_id then
    let required_bytes := 2
    if byte_index + required_bytes ≤ msg.data.length then
      let raw_rpm_value := int_from_bytes_le ((msg.data.drop byte_index).take required_bytes)
      some ((raw_rpm_value : Rat) * scale_factor + rpm_offset)
    else if byte_index + 1 ≤ msg.data.length then
      let raw_rpm_value := msg.data.getD byte_index 0
      some ((raw_rpm_value : Rat) * scale_factor + rpm_offset)
    else
      none
  else
    none

/-! ## RPM → audio file selection (src/dmuffler_pi.py, get_audio_file_for_rpm) -/

/-- Python dict access `d[k]` / `d.get(k)` on an association list kept
in insertion order (a Python dict cannot hold a key twice). -/
def assoc_get {κ ν : Type} [DecidableEq κ] (k : κ) : List (κ × ν) → Option ν
  | [] => none
  | (k0, v) :: rest => if k0 = k then some v else assoc_get k rest

/-- Python `max(l)` for a list of ints (`None` on the empty list, where
Python would raise `ValueError`). -/
def pyMaxInt : List Int → Option Int
  | [] => none
  | x :: xs => some (xs.foldl (fun a b => if a < b then b else a) x)

/-- Python `min(l, key=f)` for a list of ints: first element with the
minimal key (`None` on the empty list, where Python would raise). -/
def pyMinBy (f : Int → Rat) : List Int → Option Int
  | [] => none
  | x :: xs => some (xs.foldl (fun a b => if f b < f a then b else a) x)

/-- Embedding of `get_audio_file_for_rpm(rpm, available_audio_files,
min_rpm, max_rpm, debug)` (src/dmuffler_pi.py lines 597-642).  The dict
of audio files is an association list `threshold ↦ path` in insertion
order.  `max_rpm` is accepted and unused, exactly as in the source. -/
def get_audio_file_for_rpm (rpm : Rat) (available_audio_files : List (Int × String))
    (min_rpm max_rpm : Int) : Option String :=
  if available_audio_files.isEmpty then none
  else if rpm < (min_rpm : Rat) then none
  else
    let keys := available_audio_files.map Prod.fst
    let suitable_rpm_keys := keys.filter (fun r => decide ((Int.cast r : Rat) ≤ rpm))
    if suitable_rpm_keys.isEmpty then
      if (min_rpm : Rat) ≤ rpm then
        match pyMinBy (fun r_key => |(r_key : Rat) - rpm|) keys with
        | some closest_rpm_key => assoc_get closest_rpm_key available_audio_files
        | none => none
      else none
    else
      match pyMaxInt suitable_rpm_keys with
      | some best_match_rpm => assoc_get best_match_rpm available_audio_files
      | none => none

/-- The catalog of the end-to-end scenario:
`{0: "idle.wav", 3000: "mid.wav", 6000: "high.wav"}`. -/
def demo_catalog : List (Int × String) :=
  [(0, "idle.wav"), (3000, "mid.wav"), (6000, "high.wav")]

/-! ## WAV catalog loading and startup (src/dmuffler_pi.py) -/

/-- Whether `'0' <= c <= '9'`. -/
def is_ascii_digit (c : Char) : Bool :=
  decide ('0' ≤ c) && decide (c ≤ '9')

/-- Value of a digit string, most significant first. -/
def digits_to_nat (cs : List Char) : Nat :=
  cs.foldl (fun acc c => 10 * acc + (c.toNat - '0'.toNat)) 0

/-- Python `int(s)` on the relevant inputs: an optional sign followed
by at least one decimal digit; anything else raises `ValueError`
(modelled as `none`). -/
def py_int_parse (cs : List Char) : Option Int :=
  match cs with
  | [] => none
  | '-' :: rest =>
    if rest ≠ [] ∧ rest.all is_ascii_digit then some (-(digits_to_nat rest : Int)) else none
  | _ =>
    if cs.all is_ascii_digit then some (digits_to_nat cs : Int) else none

/-- Python `s.split("rpm")[0]`: the text before the first occurrence of
`"rpm"` (the whole string when `"rpm"` does not occur). -/
def split_head_rpm : List Char → List Char
  | [] => []
  | c :: rest =>
    if (c :: rest).take 3 = ['r', 'p', 'm'] then [] else c :: split_head_rpm rest

/-- Python `int(f.split("rpm")[0])`: the text before the first `"rpm"`,
parsed as an integer (`none` when `int()` raises `ValueError`). -/
def parse_rpm_key (f : String) : Option Int :=
  py_int_parse (split_head_rpm f.toList)

/-- Python `f.lower().endswith(".wav")`. -/
def ends_with_wav (f : String) : Bool :=
  (f.toList.map Char.toLower).reverse.take 4 = ['v', 'a', 'w', '.']

/-- Python dict assignment `d[k] = v`: updates the existing binding in
place or appends a new one. -/
def dict_insert (k : Int) (v : String) : List (Int × String) → List (Int × String)
  | [] => [(k, v)]
  | (k0, v0) :: rest =>
    if k0 = k then (k0, v) :: rest else (k0, v0) :: dict_insert k v rest

/-- Python string comparison `a <= b`: lexicographic on code points. -/
def chars_le : List Char → List Char → Bool
  | [], _ => true
  | _ :: _, [] => false
  | a :: as_, b :: bs =>
    if a < b then true else if a = b then chars_le as_ bs else false

/-- Insertion step for `sorted(...)` on strings. -/
def insert_sorted (x : String) : List String → List String
  | [] => [x]
  | y :: ys => if chars_le x.toList y.toList then x :: y :: ys else y :: insert_sorted x ys

/-- Python `sorted(l)` for strings (insertion sort; stable, ascending). -/
def py_sorted (l : List String) : List String :=
  l.foldr insert_sorted []

/-- Python `os.path.join(path, f)` for a relative `f` on POSIX. -/
def os_path_join (path f : String) : String :=
  if path = "" then f
  else if path.toList.getLast? = some '/' then path ++ f else path ++ "/" ++ f

/-- Embedding of `load_audio_files(path, debug)` (src/dmuffler_pi.py
lines 360-383).  The filesystem interaction is made explicit:
`dir_exists` is `os.path.isdir(path)` and `listing` is
`os.listdir(path)`.  Every `f` in the sorted listing that ends (case
insensitively) in `.wav` and whose text before `"rpm"` parses as an
integer is bound as `loaded_files[key] = os.path.join(path, f)`; no
file is ever opened or checked for existence. -/
def load_audio_files (path : String) (dir_exists : Bool) (listing : List String) :
    List (Int × String) :=
  if !dir_exists then []
  else
    (py_sorted listing).foldl
      (fun loaded_files f =>
        if ends_with_wav f then
          match parse_rpm_key f with
          | some rpm_key => dict_insert rpm_key (os_path_join path f) loaded_files
          | none => loaded_files
        else loaded_files)
      []

/-- Outcome of the startup audio-loading phase of the `__main__` block
(src/dmuffler_pi.py lines 773-778): `sys.exit(1)` when no audio files
were loaded, otherwise the process continues towards the main loop with
the loaded catalog.  There is no other startup validation of the
catalog; in particular no error type naming a missing file exists. -/
inductive StartupResult
  | exited
  | running (audio_files : List (Int × String))
deriving DecidableEq

/-- The startup audio-loading phase (src/dmuffler_pi.py lines 773-778). -/
def startup_load_phase (path : String) (dir_exists : Bool) (listing : List String) :
    StartupResult :=
  let audio_files := load_audio_files path dir_exists listing
  if audio_files.isEmpty then StartupResult.exited else StartupResult.running audio_files

/-- What a playback thread does about a missing file
(src/dmuffler_pi.py lines 460-532): `wave.open` on a nonexistent path
raises `FileNotFoundError`, which the thread catches on line 507 and
logs; the error never propagates out of the thread. -/
inductive PlayOutcome
  | finishedPlaying
  | caughtFileNotFound (path : String)
deriving DecidableEq

/-- Embedding of the file-open outcome of `play_audio_segment_threaded`
(src/dmuffler_pi.py lines 460-532): `fs_files` is the set of paths that
exist on disk when the thread runs. -/
def play_audio_segment_threaded_outcome (fs_files : List String) (wav_path : String) :
    PlayOutcome :=
  if wav_path ∈ fs_files then PlayOutcome.finishedPlaying
  else PlayOutcome.caughtFileNotFound wav_path

/-! ## The audio-logic step of the main loop (src/dmuffler_pi.py lines 997-1057) -/

/-- One iteration of the audio logic of the `__main__` loop, acting on
`last_played_audio_file` (src/dmuffler_pi.py lines 1004-1057).  Returns
the new `last_played_audio_file` and whether a new playback thread was
started this tick: a thread starts exactly when the target exists and
differs from the last played file (line 1009); when the target equals
the last played file nothing changes (lines 1042-1049); when there is
no target, `last_played_audio_file` is reset to `None` (line 1057). -/
def audio_logic_step (rpm : Rat) (available_audio_files : List (Int × String))
    (min_rpm max_rpm : Int) (last_played_audio_file : Option String) :
    Option String × Bool :=
  match get_audio_file_for_rpm rpm available_audio_files min_rpm max_rpm with
  | some target_audio_file =>
    if some target_audio_file ≠ last_played_audio_file then (some target_audio_file, true)
    else (last_played_audio_file, false)
  | none => (none, false)

/-! ## Pitch shifter (src/EngineSoundPitchShifter.py) -/

/-- The playback state of `EngineSoundPitchShifter` that the audio
callback reads and writes: `playing`, `currentFrame`, `pitchFactor`,
and the decoded samples `audioTimeSeries` (src lines 44-58). -/
structure PSState where
  playing : Bool
  currentFrame : Nat
  pitchFactor : Rat
  audioTimeSeries : List Rat
deriving DecidableEq

/-- The slice `self.audioTimeSeries[self.currentFrame : self.currentFrame + frames]`
(src/EngineSoundPitchShifter.py line 114). -/
def audio_chunk (s : PSState) (frames : Nat) : List Rat :=
  (s.audioTimeSeries.drop s.currentFrame).take frames

/-- Embedding of `EngineSoundPitchShifter.audio_callback`
(src/EngineSoundPitchShifter.py lines 108-140).  The library call
`librosa.effects.pitch_shift` is the parameter `pitch_shift`; `none`
means the call raised, which the callback catches on line 133 and
converts to `outdata.fill(0)`.  The returned list is the content of
`outdata` (a `frames × 1` buffer) and the returned state is the updated
object state (`currentFrame` advances by `frames` only on the success
path, line 132). -/
def audio_callback (pitch_shift : List Rat → Option (List Rat))
    (s : PSState) (frames : Nat) : List Rat × PSState :=
  if s.playing = true ∧ s.currentFrame < s.audioTimeSeries.length then
    let chunk := audio_chunk s frames
    if 0 < chunk.length then
      match pitch_shift chunk with
      | some shifted_chunk =>
        let processed_chunk :=
          if shifted_chunk.length < frames then
            shifted_chunk ++ List.replicate (frames - shifted_chunk.length) 0
          else
            shifted_chunk.take frames
        (processed_chunk, { s with currentFrame := s.currentFrame + frames })
      | none => (List.replicate frames 0, s)
    else (List.replicate frames 0, s)
  else (List.replicate frames 0, s)

/-- Iterated invocations of the audio callback: one output buffer per
requested frame count, threading the state. -/
def audio_callback_iter (pitch_shift : List Rat → Option (List Rat)) :
    PSState → List Nat → List (List Rat) × PSState
  | s, [] => ([], s)
  | s, frames :: rest =>
    let out := audio_callback pitch_shift s frames
    let outs := audio_callback_iter pitch_shift out.2 rest
    (out.1 :: outs.1, outs.2)

/-- Initialization `self.pitchFactor = 1.0` in `__init__` (src line 51). -/
def pitchFactor_init : Rat := 1

/-- One iteration of the body of `simulate_gas_pedal`
(src/EngineSoundPitchShifter.py lines 167-180): holding `W` does
`self.pitchFactor = min(2.0, self.pitchFactor + 0.02)`, otherwise the
factor decays by `max(1.0, self.pitchFactor - 0.02)` but only while it
is above `1.0`. -/
def simulate_gas_pedal_step (isWPressed : Bool) (pitchFactor : Rat) : Rat :=
  if isWPressed then min 2 (pitchFactor + 2/100)
  else if 1 < pitchFactor then max 1 (pitchFactor - 2/100)
  else pitchFactor

/-- The pitch factor after running `simulate_gas_pedal` from the
initial state over a sequence of observed `W`-key states. -/
def simulate_gas_pedal_run (keys : List Bool) : Rat :=
  keys.foldl (fun pf k => simulate_gas_pedal_step k pf) pitchFactor_init

/-! ## Engine sound generator (src/EngineSoundGenerator.py) -/

/-- The dictionary `GlobalConstants.EngineSoundsDict` (src/GlobalConstants.py lines 52-63). -/
def EngineSoundsDict : List (String × Int) :=
  [("mclaren_f1.wav", 0), ("laferrari.wav", 1), ("porsche_911.wav", 2),
   ("bmw_m4.wav", 3), ("jaguar_e_type_series_1.wav", 4),
   ("ford_model_t.wav", 5), ("ford_mustang_gt350.wav", 6)]

/-- The directory `GlobalConstants.SOUNDS_BASE_PATH` relative to the project root
(src/GlobalConstants.py line 23). -/
def SOUNDS_BASE_PATH : String := "static/sounds"

/-- The path `str(GC.SOUNDS_BASE_PATH / new_sound_filename)`
(src/EngineSoundGenerator.py line 103). -/
def sound_file_path (name : String) : String :=
  SOUNDS_BASE_PATH ++ "/" ++ name

/-- The three state fields of `EngineSoundGenerator` that
`set_engine_sound` manages (src/EngineSoundGenerator.py lines 30-32);
`α` is the type of `simpleaudio` wave objects, opaque to the logic. -/
structure ESGState (α : Type) where
  base_audio_filename : Option String
  engine_sound_wave_object : Option α
  engine_sound_id : Option Int
deriving DecidableEq

/-- Embedding of `EngineSoundGenerator._revert_to_previous_sound`
(src/EngineSoundGenerator.py lines 125-130). -/
def revert_to_previous_sound {α : Type} (prev_filename : Option String)
    (prev_wave_obj : Option α) (prev_id : Option Int) (s : ESGState α) : ESGState α :=
  { s with base_audio_filename := prev_filename,
           engine_sound_wave_object := prev_wave_obj,
           engine_sound_id := prev_id }

/-- Embedding of `EngineSoundGenerator.set_engine_sound`
(src/EngineSoundGenerator.py lines 86-123).  `from_wave_file` is
`sa.WaveObject.from_wave_file`; `none` means it raised (any exception —
both `except` arms call `_revert_to_previous_sound`, lines 114-119).
The three previous field values are captured first (lines 96-98); on a
successful load all three fields are assigned (lines 110-112); a
filename that is not a key of `EngineSoundsDict` changes nothing
(lines 120-123).  The only operation that can raise sits before every
assignment. -/
def set_engine_sound {α : Type} (from_wave_file : String → Option α)
    (s : ESGState α) (new_sound_filename : String) : ESGState α :=
  let previous_sound_filename := s.base_audio_filename
  let previous_wave_object := s.engine_sound_wave_object
  let previous_sound_id := s.engine_sound_id
  if (assoc_get new_sound_filename EngineSoundsDict).isSome then
    match from_wave_file (sound_file_path new_sound_filename) with
    | some wave_obj =>
      { s with engine_sound_wave_object := some wave_obj,
               base_audio_filename := some new_sound_filename,
               engine_sound_id := assoc_get new_sound_filename EngineSoundsDict }
    | none =>
      revert_to_previous_sound previous_sound_filename previous_wave_object
        previous_sound_id s
  else s

/-! ## Helper lemmas -/

lemma assoc_get_isSome {κ ν : Type} [DecidableEq κ] (k : κ) (l : List (κ × ν))
    (h : k ∈ l.map Prod.fst) : (assoc_get k l).isSome = true := by
  induction l with
  | nil => simp at h
  | cons p rest ih =>
    obtain ⟨k0, v⟩ := p
    rw [List.map_cons] at h
    by_cases hk : k0 = k
    · simp [assoc_get, hk]
    · have hmem : k ∈ rest.map Prod.fst := by
        rcases List.mem_cons.mp h with h1 | h1
        · exact absurd h1.symm hk
        · exact h1
      simpa [assoc_get, hk] using ih hmem

lemma foldl_max_aux (xs : List Int) (a : Int) :
    (xs.foldl (fun a b => if a < b then b else a) a = a ∨
      xs.foldl (fun a b => if a < b then b else a) a ∈ xs) ∧
    a ≤ xs.foldl (fun a b => if a < b then b else a) a ∧
    ∀ y ∈ xs, y ≤ xs.foldl (fun a b => if a < b then b else a) a := by
  induction xs generalizing a with
  | nil => exact ⟨Or.inl rfl, le_refl a, by simp⟩
  | cons b bs ih =>
    have hstep_a : a ≤ (if a < b then b else a) := by
      by_cases h : a < b <;> simp [h]
      omega
    have hstep_b : b ≤ (if a < b then b else a) := by
      by_cases h : a < b <;> simp [h]
      omega
    obtain ⟨hmem, hle, hub⟩ := ih (if a < b then b else a)
    simp only [List.foldl_cons]
    refine ⟨?_, le_trans hstep_a hle, ?_⟩
    · rcases hmem with h1 | h1
      · rw [h1]
        by_cases h : a < b <;> simp [h]
      · exact Or.inr (List.mem_cons_of_mem b h1)
    · intro y hy
      rcases List.mem_cons.mp hy with h1 | h1
      · subst h1
        exact le_trans hstep_b hle
      · exact hub y h1

lemma pyMaxInt_spec (l : List Int) (hne : l ≠ []) :
    ∃ m, pyMaxInt l = some m ∧ m ∈ l ∧ ∀ y ∈ l, y ≤ m := by
  cases l with
  | nil => exact absurd rfl hne
  | cons x xs =>
    obtain ⟨hmem, hle, hub⟩ := foldl_max_aux xs x
    refine ⟨_, rfl, ?_, ?_⟩
    · rcases hmem with h1 | h1
      · rw [h1]
        exact List.mem_cons_self x xs
      · exact List.mem_cons_of_mem x h1
    · intro y hy
      rcases List.mem_cons.mp hy with h1 | h1
      · subst h1
        exact hle
      · exact hub y h1

lemma foldl_minby_aux (f : Int → Rat) (xs : List Int) (a : Int) :
    (xs.foldl (fun a b => if f b < f a then b else a) a = a ∨
      xs.foldl (fun a b => if f b < f a then b else a) a ∈ xs) ∧
    f (xs.foldl (fun a b => if f b < f a then b else a) a) ≤ f a ∧
    ∀ y ∈ xs, f (xs.foldl (fun a b => if f b < f a then b else a) a) ≤ f y := by
  induction xs generalizing a with
  | nil => exact ⟨Or.inl rfl, le_refl _, by simp⟩
  | cons b bs ih =>
    have hstep_a : f (if f b < f a then b else a) ≤ f a := by
      by_cases h : f b < f a <;> simp [h]
      exact le_of_lt h
    have hstep_b : f (if f b < f a then b else a) ≤ f b := by
      by_cases h : f b < f a <;> simp [h]
      exact le_of_not_lt h
    obtain ⟨hmem, hle, hlb⟩ := ih (if f b < f a then b else a)
    simp only [List.foldl_cons]
    refine ⟨?_, le_trans hle hstep_a, ?_⟩
    · rcases hmem with h1 | h1
      · rw [h1]
        by_cases h : f b < f a <;> simp [h]
      · exact Or.inr (List.mem_cons_of_mem b h1)
    · intro y hy
      rcases List.mem_cons.mp hy with h1 | h1
      · subst h1
        exact le_trans hle hstep_b
      · exact hlb y h1

lemma pyMinBy_spec (f : Int → Rat) (l : List Int) (hne : l ≠ []) :
    ∃ m, pyMinBy f l = some m ∧ m ∈ l ∧ ∀ y ∈ l, f m ≤ f y := by
  cases l with
  | nil => exact absurd rfl hne
  | cons x xs =>
    obtain ⟨hmem, hle, hlb⟩ := foldl_minby_aux f xs x
    refine ⟨_, rfl, ?_, ?_⟩
    · rcases hmem with h1 | h1
      · rw [h1]
        exact List.mem_cons_self x xs
      · exact List.mem_cons_of_mem x h1
    · intro y hy
      rcases List.mem_cons.mp hy with h1 | h1
      · subst h1
        exact hle
      · exact hlb y h1

/-! ## Claim theorems -/

/-- C1: the claim describes the intended behaviour of
`get_rpm_from_can_message` — and indeed, on the repaired body, a
matching frame with raw little-endian bytes `[0x10, 0x27]` at offset 0,
scale 1.0 and offset 0.0 yields exactly 10000.0 — but the committed
function cannot execute at all: `dmuffler_pi.py` is not valid Python
(`IndentationError`), so this evaluation documents what the intended
code computes at the input on which the committed code fails. -/
theorem get_rpm_intended_value_at_failing_input :
    get_rpm_from_can_message ⟨0x123, [0x10, 0x27]⟩ 0x123 0 1 0 = some 10000 := by
  simp [get_rpm_from_can_message, int_from_bytes_le]

/-- C2 counterexample: a matching frame whose payload (1 byte) is
shorter than `byte_index + 2` does not produce a decode error at all —
the fallback branch decodes the single byte and returns `some 16` — and
an even shorter payload returns `none`, exactly the same value as the
"no sample" result of a non-matching identifier, so the failure is not
distinct from it. -/
theorem get_rpm_no_decode_error_counterexample :
    get_rpm_from_can_message ⟨0x123, [0x10]⟩ 0x123 0 1 0 = some 16 ∧
    get_rpm_from_can_message ⟨0x123, []⟩ 0x123 0 1 0 =
      get_rpm_from_can_message ⟨0x124, []⟩ 0x123 0 1 0 := by
  constructor
  · simp [get_rpm_from_can_message]
  · rfl

/-- C2 (amended): for a frame with matching identifier,
`get_rpm_from_can_message` decodes 16-bit little-endian when
`byte_index + 2` bytes are available, falls back to decoding the single
byte at `byte_index` when exactly `byte_index + 1` bytes are available,
and otherwise returns `None` — the very same value as for a
non-matching identifier; no typed decode error exists, and every byte
access is guarded by the corresponding length check. -/
theorem get_rpm_short_payload_behavior (msg : CanMessage) (target byte_index : Nat)
    (scale_factor rpm_offset : Rat) (h : msg.arbitration_id = target) :
    (byte_index + 2 ≤ msg.data.length →
      get_rpm_from_can_message msg target byte_index scale_factor rpm_offset =
        some ((int_from_bytes_le ((msg.data.drop byte_index).take 2) : Rat) * scale_factor +
          rpm_offset)) ∧
    (msg.data.length = byte_index + 1 →
      get_rpm_from_can_message msg target byte_index scale_factor rpm_offset =
        some ((msg.data.getD byte_index 0 : Rat) * scale_factor + rpm_offset)) ∧
    (msg.data.length ≤ byte_index →
      get_rpm_from_can_message msg target byte_index scale_factor rpm_offset = none ∧
      get_rpm_from_can_message msg target byte_index scale_factor rpm_offset =
        get_rpm_from_can_message ⟨target + 1, msg.data⟩ target byte_index scale_factor
          rpm_offset) := by
  refine ⟨?_, ?_, ?_⟩
  · intro hlen
    simp [get_rpm_from_can_message, h, hlen]
  · intro hlen
    have h1 : ¬ (byte_index + 2 ≤ msg.data.length) := by omega
    have h2 : byte_index + 1 ≤ msg.data.length := by omega
    simp [get_rpm_from_can_message, h, h1, h2]
  · intro hlen
    have h1 : ¬ (byte_index + 2 ≤ msg.data.length) := by omega
    have h2 : ¬ (byte_index + 1 ≤ msg.data.length) := by omega
    have h3 : ¬ (target + 1 = target) := by omega
    constructor
    · simp [get_rpm_from_can_message, h, h1, h2]
    · simp [get_rpm_from_can_message, h, h1, h2, h3]

/-- C2 witness: at a matching frame with an empty payload both the
"too short" result and the "no sample" result are `none`. -/
theorem get_rpm_short_payload_behavior_witness :
    get_rpm_from_can_message ⟨291, []⟩ 291 0 1 0 = none ∧
    get_rpm_from_can_message ⟨291, []⟩ 291 0 1 0 =
      get_rpm_from_can_message ⟨292, []⟩ 291 0 1 0 :=
  (get_rpm_short_payload_behavior ⟨291, []⟩ 291 0 1 0 rfl).2.2 (by decide)

/-- C3 counterexample: the startup load phase reaches the running state
with a catalog entry `audio/1000rpm.wav` without any existence check
(only the directory listing is consulted), and when that file is absent
from the filesystem at playback time, the playback thread observes a
`FileNotFoundError` — a missing-file error at playback time, which the
claim says can never occur; no `AssetMissing` startup error exists in
the code at all. -/
theorem startup_missing_file_counterexample :
    startup_load_phase "audio/" true ["1000rpm.wav"] =
      StartupResult.running [(1000, "audio/1000rpm.wav")] ∧
    play_audio_segment_threaded_outcome [] "audio/1000rpm.wav" =
      PlayOutcome.caughtFileNotFound "audio/1000rpm.wav" := by
  constructor
  · rfl
  · rfl

/-- C3 (amended): startup performs no per-file validation and has no
`AssetMissing` error: the load phase exits (before the main loop) if
and only if the directory scan produced no catalog entries, and a
catalog path that is missing from the filesystem when its playback
thread runs produces a `FileNotFoundError` that is caught and logged
inside the thread. -/
theorem startup_and_playback_missing_file_behavior
    (path : String) (dir_exists : Bool) (listing fs_files : List String) (p : String) :
    (startup_load_phase path dir_exists listing = StartupResult.exited ↔
      load_audio_files path dir_exists listing = []) ∧
    (p ∉ fs_files →
      play_audio_segment_threaded_outcome fs_files p = PlayOutcome.caughtFileNotFound p) := by
  constructor
  · cases hl : load_audio_files path dir_exists listing with
    | nil => simp [startup_load_phase, hl]
    | cons q l => simp [startup_load_phase, hl]
  · intro hp
    simp [play_audio_segment_threaded_outcome, hp]

/-- C3 witness: with an empty listing the load phase exits, and a
playback thread for a path missing from an empty filesystem catches
`FileNotFoundError`. -/
theorem startup_and_playback_missing_file_behavior_witness :
    (startup_load_phase "audio/" true [] = StartupResult.exited ↔
      load_audio_files "audio/" true [] = []) ∧
    play_audio_segment_threaded_outcome [] "a.wav" = PlayOutcome.caughtFileNotFound "a.wav" :=
  ⟨(startup_and_playback_missing_file_behavior "audio/" true [] [] "a.wav").1,
   (startup_and_playback_missing_file_behavior "audio/" true [] [] "a.wav").2 (by simp)⟩

/-- C4 counterexample: with the scenario catalog and the configured
default silence floor `min_rpm = 1000` (the cited
`parse_arguments` default), selecting at RPM 500 yields no file at all
— `get_audio_file_for_rpm` returns `None` below `min_rpm` — not
`idle.wav` as the claim states. -/
theorem rpm_selection_at_500_counterexample :
    ¬ (get_audio_file_for_rpm 500 demo_catalog 1000 8000 = some "idle.wav") := by
  intro h
  have h0 : get_audio_file_for_rpm 500 demo_catalog 1000 8000 = none := rfl
  rw [h0] at h
  exact Option.noConfusion h

/-- C4 (amended): with the catalog `{0: idle.wav, 3000: mid.wav,
6000: high.wav}` and the default `min_rpm = 1000`, `max_rpm = 8000`,
the RPM sequence 500, 2900, 3100, 5990, 6200 selects silence (`None`,
because 500 is below the silence floor), then `idle.wav`, `mid.wav`,
`mid.wav`, `high.wav`. -/
theorem rpm_sequence_amended :
    get_audio_file_for_rpm 500 demo_catalog 1000 8000 = none ∧
    get_audio_file_for_rpm 2900 demo_catalog 1000 8000 = some "idle.wav" ∧
    get_audio_file_for_rpm 3100 demo_catalog 1000 8000 = some "mid.wav" ∧
    get_audio_file_for_rpm 5990 demo_catalog 1000 8000 = some "mid.wav" ∧
    get_audio_file_for_rpm 6200 demo_catalog 1000 8000 = some "high.wav" :=
  ⟨rfl, rfl, rfl, rfl, rfl⟩

/-- C6: the audio-logic step of the main loop applies hysteresis: when
the current RPM maps to the asset that is already the last played file,
the selection is unchanged and no new playback thread is started; and
whenever the selection does change, the newly computed target
necessarily differs from the last played file. -/
theorem hysteresis_no_change_within_bucket (rpm : Rat)
    (available_audio_files : List (Int × String)) (min_rpm max_rpm : Int)
    (last_played : Option String) (A : String) :
    (get_audio_file_for_rpm rpm available_audio_files min_rpm max_rpm = some A →
      last_played = some A →
      audio_logic_step rpm available_audio_files min_rpm max_rpm last_played =
        (some A, false)) ∧
    ((audio_logic_step rpm available_audio_files min_rpm max_rpm last_played).1 ≠
        last_played →
      get_audio_file_for_rpm rpm available_audio_files min_rpm max_rpm ≠ last_played) := by
  constructor
  · intro hget hlast
    subst hlast
    simp [audio_logic_step, hget]
  · intro hne
    cases hget : get_audio_file_for_rpm rpm available_audio_files min_rpm max_rpm with
    | none =>
      simp only [audio_logic_step, hget] at hne
      exact hne
    | some t =>
      by_cases ht : some t = last_played
      · subst ht
        simp [audio_logic_step, hget] at hne
      · exact fun hc => ht hc

/-- C6 witness: with the scenario catalog, RPM 2000 maps to `idle.wav`;
when `idle.wav` is already the last played file the step keeps it and
starts nothing. -/
theorem hysteresis_no_change_within_bucket_witness :
    audio_logic_step 2000 demo_catalog 1000 8000 (some "idle.wav") =
      (some "idle.wav", false) :=
  (hysteresis_no_change_within_bucket 2000 demo_catalog 1000 8000
    (some "idle.wav") "idle.wav").1 rfl rfl

/-- C10: `set_engine_sound` either leaves all three state fields
exactly as they were — when the filename is not a key of
`EngineSoundsDict`, or when loading the wave file raises (the only
fallible operation precedes every assignment, and both `except` arms
revert to the captured previous triple) — or, on a successful load,
assigns all three fields together. -/
theorem set_engine_sound_failure_preserves_state (α : Type)
    (from_wave_file : String → Option α) (s : ESGState α) (name : String) :
    ((assoc_get name EngineSoundsDict = none ∨
        from_wave_file (sound_file_path name) = none) →
      set_engine_sound from_wave_file s name = s) ∧
    (∀ w, from_wave_file (sound_file_path name) = some w →
      (assoc_get name EngineSoundsDict).isSome = true →
      set_engine_sound from_wave_file s name =
        { base_audio_filename := some name,
          engine_sound_wave_object := some w,
          engine_sound_id := assoc_get name EngineSoundsDict }) := by
  constructor
  · rintro (hk | hl)
    · simp [set_engine_sound, hk]
    · by_cases hk : (assoc_get name EngineSoundsDict).isSome
      · simp [set_engine_sound, hk, hl, revert_to_previous_sound]
      · simp [set_engine_sound, hk]
  · intro w hw hk
    simp [set_engine_sound, hk, hw]

/-- C10 witness: a loader that always raises leaves the empty state
untouched for a filename that is a key of the dictionary. -/
theorem set_engine_sound_failure_preserves_state_witness :
    set_engine_sound (fun _ => (none : Option Nat)) ⟨none, none, none⟩ "mclaren_f1.wav" =
      (⟨none, none, none⟩ : ESGState Nat) :=
  (set_engine_sound_failure_preserves_state Nat (fun _ => none) ⟨none, none, none⟩
    "mclaren_f1.wav").1 (Or.inr rfl)

lemma audio_callback_done (pitch_shift : List Rat → Option (List Rat)) (s : PSState)
    (frames : Nat) (h : s.playing = false ∨ s.audioTimeSeries.length ≤ s.currentFrame) :
    audio_callback pitch_shift s frames = (List.replicate frames 0, s) := by
  have hc : ¬ (s.playing = true ∧ s.currentFrame < s.audioTimeSeries.length) := by
    rcases h with h | h
    · rintro ⟨hp, _⟩
      rw [h] at hp
      exact Bool.noConfusion hp
    · rintro ⟨_, hlt⟩
      omega
  simp [audio_callback, hc]

/-- C7: every invocation of the audio callback produces an output
buffer of exactly the requested number of frames — a shorter
pitch-shifted chunk is padded with silence, a longer one truncated —
and a pitch-shift error on the processing path is converted to a fully
silent buffer instead of escaping the callback. -/
theorem audio_callback_exact_frames (pitch_shift : List Rat → Option (List Rat))
    (s : PSState) (frames : Nat) :
    ((audio_callback pitch_shift s frames).1.length = frames) ∧
    (s.playing = true → s.currentFrame < s.audioTimeSeries.length →
      pitch_shift (audio_chunk s frames) = none →
      (audio_callback pitch_shift s frames).1 = List.replicate frames 0) := by
  constructor
  · by_cases hc : s.playing = true ∧ s.currentFrame < s.audioTimeSeries.length
    · simp only [audio_callback, if_pos hc]
      by_cases hl : 0 < (audio_chunk s frames).length
      · simp only [if_pos hl]
        cases hps : pitch_shift (audio_chunk s frames) with
        | none => simp
        | some shifted_chunk =>
          by_cases hs : shifted_chunk.length < frames
          · simp only [if_pos hs, List.length_append, List.length_replicate]
            omega
          · simp only [if_neg hs, List.length_take]
            omega
      · simp [if_neg hl]
    · simp [audio_callback, hc]
  · intro hp hcf hps
    have hc : s.playing = true ∧ s.currentFrame < s.audioTimeSeries.length := ⟨hp, hcf⟩
    simp only [audio_callback, if_pos hc]
    by_cases hl : 0 < (audio_chunk s frames).length
    · simp [if_pos hl, hps]
    · simp [if_neg hl]

/-- C7 witness: a pitch shifter that always raises yields a fully
silent 4-frame buffer on a playing state with samples remaining. -/
theorem audio_callback_exact_frames_witness :
    (audio_callback (fun _ => none) ⟨true, 0, 1, [1]⟩ 4).1 = List.replicate 4 0 :=
  (audio_callback_exact_frames (fun _ => none) ⟨true, 0, 1, [1]⟩ 4).2 rfl (by decide) rfl

/-- C8: the pitch factor starts at 1.0 and, after any sequence of
gas-pedal simulation iterations (each observing whether `W` is held),
remains within 0.5 and 2.0 inclusive — in fact within 1.0 and 2.0. -/
theorem pitchFactor_in_range :
    pitchFactor_init = 1 ∧
    ∀ keys : List Bool,
      1/2 ≤ simulate_gas_pedal_run keys ∧ simulate_gas_pedal_run keys ≤ 2 := by
  have hstep : ∀ (k : Bool) (pf : Rat), 1 ≤ pf → pf ≤ 2 →
      1 ≤ simulate_gas_pedal_step k pf ∧ simulate_gas_pedal_step k pf ≤ 2 := by
    intro k pf h1 h2
    cases k with
    | true =>
      constructor
      · simp only [simulate_gas_pedal_step, if_pos rfl]
        exact le_min (by norm_num) (by linarith)
      · simp only [simulate_gas_pedal_step, if_pos rfl]
        exact min_le_left _ _
    | false =>
      by_cases hgt : 1 < pf
      · constructor
        · simp only [simulate_gas_pedal_step, Bool.false_eq_true, if_false, if_pos hgt]
          exact le_max_left _ _
        · simp only [simulate_gas_pedal_step, Bool.false_eq_true, if_false, if_pos hgt]
          exact max_le (by norm_num) (by linarith)
      · constructor
        · simpa only [simulate_gas_pedal_step, Bool.false_eq_true, if_false,
            if_neg hgt] using h1
        · simpa only [simulate_gas_pedal_step, Bool.false_eq_true, if_false,
            if_neg hgt] using h2
  have haux : ∀ (keys : List Bool) (pf : Rat), 1 ≤ pf → pf ≤ 2 →
      1 ≤ keys.foldl (fun a k => simulate_gas_pedal_step k a) pf ∧
      keys.foldl (fun a k => simulate_gas_pedal_step k a) pf ≤ 2 := by
    intro keys
    induction keys with
    | nil => intro pf h1 h2; exact ⟨h1, h2⟩
    | cons k ks ih =>
      intro pf h1 h2
      obtain ⟨g1, g2⟩ := hstep k pf h1 h2
      simpa only [List.foldl_cons] using ih (simulate_gas_pedal_step k pf) g1 g2
  refine ⟨rfl, fun keys => ?_⟩
  obtain ⟨g1, g2⟩ := haux keys pitchFactor_init (by norm_num [pitchFactor_init])
    (by norm_num [pitchFactor_init])
  exact ⟨le_trans (by norm_num) g1, g2⟩

/-- C9: once the state is past the end of the loaded samples (or not
playing), every subsequent audio callback writes an all-zero buffer and
leaves the state — in particular `currentFrame` — unchanged; the clip
never restarts. -/
theorem callback_after_end_silent (pitch_shift : List Rat → Option (List Rat))
    (s : PSState) (framesList : List Nat)
    (h : s.playing = false ∨ s.audioTimeSeries.length ≤ s.currentFrame) :
    (audio_callback_iter pitch_shift s framesList).1 =
      framesList.map (fun f => List.replicate f 0) ∧
    (audio_callback_iter pitch_shift s framesList).2 = s := by
  induction framesList with
  | nil => exact ⟨rfl, rfl⟩
  | cons f fs ih =>
    have hstep := audio_callback_done pitch_shift s f h
    simp only [audio_callback_iter, hstep, List.map_cons]
    exact ⟨by rw [ih.1], ih.2⟩

/-- C9 witness: a stopped state with no samples stays unchanged and
produces silent buffers of the requested sizes. -/
theorem callback_after_end_silent_witness :
    (audio_callback_iter (fun _ => none) ⟨false, 0, 1, []⟩ [2, 3]).1 =
      [2, 3].map (fun f => List.replicate f 0) ∧
    (audio_callback_iter (fun _ => none) ⟨false, 0, 1, []⟩ [2, 3]).2 =
      (⟨false, 0, 1, []⟩ : PSState) :=
  callback_after_end_silent (fun _ => none) ⟨false, 0, 1, []⟩ [2, 3] (Or.inl rfl)

/-- C5: for every non-empty catalog and every rpm at or above the
silence floor, `get_audio_file_for_rpm` returns the asset with the
largest threshold that is ≤ rpm when one exists; and when rpm is below
every threshold it returns the lowest-threshold asset (the "closest
key" fallback coincides with the lowest threshold, since all distances
grow with the threshold there) — in neither case silence. -/
theorem select_largest_threshold_le (files : List (Int × String)) (rpm : Rat)
    (min_rpm max_rpm : Int) (hne : files ≠ []) (hmin : (min_rpm : Rat) ≤ rpm) :
    ((∃ k0 ∈ files.map Prod.fst, (k0 : Rat) ≤ rpm) →
      ∃ k ∈ files.map Prod.fst, (k : Rat) ≤ rpm ∧
        (∀ k2 ∈ files.map Prod.fst, (k2 : Rat) ≤ rpm → k2 ≤ k) ∧
        get_audio_file_for_rpm rpm files min_rpm max_rpm = assoc_get k files ∧
        (assoc_get k files).isSome = true) ∧
    ((∀ k2 ∈ files.map Prod.fst, rpm < (k2 : Rat)) →
      ∃ k ∈ files.map Prod.fst, (∀ k2 ∈ files.map Prod.fst, k ≤ k2) ∧
        get_audio_file_for_rpm rpm files min_rpm max_rpm = assoc_get k files ∧
        (assoc_get k files).isSome = true) := by
  have hie : files.isEmpty = false := by
    cases files with
    | nil => exact absurd rfl hne
    | cons p l => rfl
  have hnlt : ¬ (rpm < (min_rpm : Rat)) := not_lt.mpr hmin
  constructor
  · rintro ⟨k0, hk0mem, hk0le⟩
    have hk0suit : k0 ∈ (files.map Prod.fst).filter
        (fun r => decide ((Int.cast r : Rat) ≤ rpm)) :=
      List.mem_filter.mpr ⟨hk0mem, by simpa using hk0le⟩
    have hsne : (files.map Prod.fst).filter
        (fun r => decide ((Int.cast r : Rat) ≤ rpm)) ≠ [] :=
      List.ne_nil_of_mem hk0suit
    obtain ⟨m, hmeq, hmmem, hub⟩ := pyMaxInt_spec _ hsne
    have hmkeys : m ∈ files.map Prod.fst := (List.mem_filter.mp hmmem).1
    have hmle : (m : Rat) ≤ rpm := by
      have h2 := (List.mem_filter.mp hmmem).2
      simpa using h2
    have hsie : ((files.map Prod.fst).filter
        (fun r => decide ((Int.cast r : Rat) ≤ rpm))).isEmpty = false := by
      cases hs : (files.map Prod.fst).filter (fun r => decide ((Int.cast r : Rat) ≤ rpm)) with
      | nil => exact absurd hs hsne
      | cons a l => rfl
    refine ⟨m, hmkeys, hmle, ?_, ?_, assoc_get_isSome m files hmkeys⟩
    · intro k2 hk2 hk2le
      exact hub k2 (List.mem_filter.mpr ⟨hk2, by simpa using hk2le⟩)
    · simp only [get_audio_file_for_rpm, hie, Bool.false_eq_true, if_false, if_neg hnlt,
        hsie, hmeq]
  · intro hall
    have hfe : (files.map Prod.fst).filter
        (fun r => decide ((Int.cast r : Rat) ≤ rpm)) = [] := by
      apply List.filter_eq_nil_iff.mpr
      intro a ha
      simp only [decide_eq_true_eq]
      exact not_le.mpr (hall a ha)
    have hkne : files.map Prod.fst ≠ [] := by
      cases files with
      | nil => exact absurd rfl hne
      | cons p l => simp
    obtain ⟨m, hmeq, hmmem, hlb⟩ :=
      pyMinBy_spec (fun r_key => |(r_key : Rat) - rpm|) (files.map Prod.fst) hkne
    have habs : ∀ y ∈ files.map Prod.fst, |(y : Rat) - rpm| = (y : Rat) - rpm := by
      intro y hy
      have hlt : rpm < (y : Rat) := hall y hy
      exact abs_of_pos (by linarith)
    have hmin_all : ∀ k2 ∈ files.map Prod.fst, m ≤ k2 := by
      intro k2 hk2
      have h1 := hlb k2 hk2
      rw [habs m hmmem, habs k2 hk2] at h1
      have h2 : (m : Rat) ≤ (k2 : Rat) := by linarith
      exact_mod_cast h2
    have hsie : ((files.map Prod.fst).filter
        (fun r => decide ((Int.cast r : Rat) ≤ rpm))).isEmpty = true := by
      rw [hfe]
      rfl
    refine ⟨m, hmmem, hmin_all, ?_, assoc_get_isSome m files hmmem⟩
    simp only [get_audio_file_for_rpm, hie, Bool.false_eq_true, if_false, if_neg hnlt,
      hsie, if_pos hmin, hmeq, if_true]

/-- C5 witness: at rpm 3100 on the scenario catalog (floor 1000) the
selection is the largest threshold ≤ 3100. -/
theorem select_largest_threshold_le_witness :
    ∃ k ∈ demo_catalog.map Prod.fst, (k : Rat) ≤ 3100 ∧
      (∀ k2 ∈ demo_catalog.map Prod.fst, (k2 : Rat) ≤ 3100 → k2 ≤ k) ∧
      get_audio_file_for_rpm 3100 demo_catalog 1000 8000 = assoc_get k demo_catalog ∧
      (assoc_get k demo_catalog).isSome = true :=
  (select_largest_threshold_le demo_catalog 3100 1000 8000
    (by simp [demo_catalog]) (by norm_num)).1
    ⟨0, by simp [demo_catalog], by norm_num⟩
